import Mathlib

/-!
Verification of the storage core of a JSON-file-backed task/bug tracker
(`todo_cli`).  The Python sources embedded here are `model.py` (the Task
record and its dict codec), `storage.py` (document load/save, backup
rotation, archive append, sorting, migration) and `cli.py` (the mutating
commands and the doctor/migrate flows).  JSON values are modelled by an
inductive type with integer numerals; Python dicts are association lists
that keep insertion order, as Python dicts do.
-/

namespace TodoCli

/-- JSON values as produced by `json.loads`.  Numbers are modelled as
integers (every number appearing in the storage schema is an integer). -/
inductive Json where
  | null : Json
  | bool (b : Bool) : Json
  | num (n : Int) : Json
  | str (s : String) : Json
  | arr (xs : List Json) : Json
  | obj (kvs : List (String × Json)) : Json

namespace Json

/-- Lookup of a key in a Python dict modelled as an association list
(`d.get(k)` returning `None`-as-absent is `Option`). -/
def lookup (kvs : List (String × Json)) (k : String) : Option Json :=
  match kvs with
  | [] => none
  | (k', v) :: rest => if k' = k then some v else lookup rest k

/-- `k in d` for a Python dict. -/
def containsKey (kvs : List (String × Json)) (k : String) : Bool :=
  (lookup kvs k).isSome

/-- `d.setdefault(k, v)`: inserts `(k, v)` at the end when `k` is absent,
leaves the dict unchanged otherwise. -/
def setdefault (kvs : List (String × Json)) (k : String) (v : Json) :
    List (String × Json) :=
  if containsKey kvs k then kvs else kvs ++ [(k, v)]

/-- In-place update `d[k] = v`: replaces the value at the first occurrence
of `k`, appends when absent (Python dict assignment). -/
def setKey (kvs : List (String × Json)) (k : String) (v : Json) :
    List (String × Json) :=
  match kvs with
  | [] => [(k, v)]
  | (k', v') :: rest =>
      if k' = k then (k, v) :: rest else (k', v') :: setKey rest k v

/-- Python `int(x)` on a JSON value: `none` models the `TypeError` /
`ValueError` that `int` raises on lists, dicts, `None` and non-numeric
strings. -/
def pyInt : Json → Option Int
  | .num n => some n
  | .bool b => some (if b then 1 else 0)
  | .str s => s.trim.toInt?
  | _ => none

/-- Python truthiness `bool(x)` of a JSON value. -/
def pyBool : Json → Bool
  | .null => false
  | .bool b => b
  | .num n => decide (n ≠ 0)
  | .str s => decide (s ≠ "")
  | .arr xs => !xs.isEmpty
  | .obj kvs => !kvs.isEmpty

/-- Python `x == n` for a JSON value against an integer constant: numbers
compare by value and booleans count as 0/1 (`True == 1` in Python); every
other type is unequal to an integer. -/
def pyEqNum (j : Json) (n : Int) : Bool :=
  match j with
  | .num m => decide (m = n)
  | .bool b => decide ((if b then (1 : Int) else 0) = n)
  | _ => false

end Json

/-- The `Task` dataclass of `model.py`.  `tags` defaults to `None` in the
dataclass, hence the `Option`; every other field is a plain value with the
dataclass defaults. -/
structure Task where
  id : Int
  text : String
  done : Bool := false
  created_at : String := ""
  done_at : String := ""
  priority : String := ""
  due : String := ""
  tags : Option (List String) := none
  bug_status : String := ""
  bug_assignee : String := ""
  bug_severity : String := ""
  bug_steps : String := ""
  bug_environment : String := ""
  deriving Repr, DecidableEq

/-- The encoded form of a task: the dict produced by `Task.to_dict`.
The five bug-specific fields are `Option`s because `to_dict` pops them
from the dict when their value is falsy (the empty string). -/
structure TaskDict where
  id : Int
  text : String
  done : Bool
  created_at : String
  done_at : String
  priority : String
  due : String
  tags : List String
  bug_status : Option String
  bug_assignee : Option String
  bug_severity : Option String
  bug_steps : Option String
  bug_environment : Option String
  deriving Repr, DecidableEq

namespace Task

/-- Helper for `to_dict`: a bug field is kept only when non-empty. -/
def bugField (s : String) : Option String :=
  if s = "" then none else some s

/-- `Task.to_dict` from `model.py`: `asdict`, then `tags None -> []`, then
pop every falsy bug field. -/
def toDict (t : Task) : TaskDict where
  id := t.id
  text := t.text
  done := t.done
  created_at := t.created_at
  done_at := t.done_at
  priority := t.priority
  due := t.due
  tags := t.tags.getD []
  bug_status := bugField t.bug_status
  bug_assignee := bugField t.bug_assignee
  bug_severity := bugField t.bug_severity
  bug_steps := bugField t.bug_steps
  bug_environment := bugField t.bug_environment

/-- `Task.from_dict` from `model.py`: every field degrades to its default
when absent; `tags` becomes a list (`list(d.get("tags") or [])`). -/
def fromDict (d : TaskDict) : Task where
  id := d.id
  text := d.text
  done := d.done
  created_at := d.created_at
  done_at := d.done_at
  priority := d.priority
  due := d.due
  tags := some d.tags
  bug_status := d.bug_status.getD ""
  bug_assignee := d.bug_assignee.getD ""
  bug_severity := d.bug_severity.getD ""
  bug_steps := d.bug_steps.getD ""
  bug_environment := d.bug_environment.getD ""

end Task

/-- The possible outcomes of reading and JSON-parsing a database file,
abstracting the byte-level input of `load_db` in `storage.py`:
the file may be missing, empty after `strip()`, malformed JSON
(`json.JSONDecodeError`), or parsed to a JSON value. -/
inductive Parsed where
  | missing : Parsed
  | empty : Parsed
  | malformed : Parsed
  | ok (j : Json) : Parsed

/-- The fresh empty document `{"version": 1, "next_id": 1, "tasks": []}`. -/
def freshDoc : List (String × Json) :=
  [("version", Json.num 1), ("next_id", Json.num 1), ("tasks", Json.arr [])]

/-- `load_db` from `storage.py`.  A missing, empty or malformed file yields
the fresh document; a parsed object gets the three top-level defaults via
`setdefault`; `Except.error ()` models the uncaught `AttributeError` that
`data.setdefault` raises when the parsed root is not an object. -/
def loadDb : Parsed → Except Unit (List (String × Json))
  | .missing => .ok freshDoc
  | .empty => .ok freshDoc
  | .malformed => .ok freshDoc
  | .ok (.obj kvs) =>
      .ok (Json.setdefault (Json.setdefault (Json.setdefault kvs
        "version" (Json.num 1)) "next_id" (Json.num 1)) "tasks" (Json.arr []))
  | .ok _ => .error ()

namespace Json

theorem lookup_append (l1 l2 : List (String × Json)) (k : String) :
    lookup (l1 ++ l2) k =
      match lookup l1 k with
      | some v => some v
      | none => lookup l2 k := by
  induction l1 with
  | nil => simp [lookup]
  | cons hd tl ih =>
      obtain ⟨k', v⟩ := hd
      by_cases h : k' = k <;> simp [lookup, h, ih]

theorem lookup_setdefault_self (kvs : List (String × Json)) (k : String)
    (v : Json) :
    lookup (setdefault kvs k v) k = some ((lookup kvs k).getD v) := by
  unfold setdefault containsKey
  cases h : lookup kvs k <;>
    simp [h, lookup_append, lookup]

theorem lookup_setdefault_other (kvs : List (String × Json))
    (k k' : String) (v : Json) (hne : k' ≠ k) :
    lookup (setdefault kvs k v) k' = lookup kvs k' := by
  unfold setdefault containsKey
  cases h : lookup kvs k
  · simp only [h, Option.isSome_none, Bool.false_eq_true, if_false]
    rw [lookup_append]
    cases h' : lookup kvs k' <;> simp [lookup, Ne.symm hne, h']
  · simp [h]

end Json

/-- C1 (amended): document load succeeds on a missing, empty or
unparseable file, returning the fresh empty document, and on a parse that
yields a JSON object it fills each missing top-level key among `version`,
`next_id`, `tasks` with its default while preserving the other keys; but
when the parse succeeds with a non-object root, load raises an uncaught
`AttributeError` (modelled by `Except.error`) instead of succeeding. -/
theorem loadDb_spec :
    loadDb .missing = .ok freshDoc ∧
    loadDb .empty = .ok freshDoc ∧
    loadDb .malformed = .ok freshDoc ∧
    (∀ kvs, ∃ d, loadDb (.ok (.obj kvs)) = .ok d ∧
      Json.lookup d "version" =
        some ((Json.lookup kvs "version").getD (.num 1)) ∧
      Json.lookup d "next_id" =
        some ((Json.lookup kvs "next_id").getD (.num 1)) ∧
      Json.lookup d "tasks" =
        some ((Json.lookup kvs "tasks").getD (.arr [])) ∧
      (∀ k, k ≠ "version" → k ≠ "next_id" → k ≠ "tasks" →
        Json.lookup d k = Json.lookup kvs k)) ∧
    (∀ j, (∀ kvs, j ≠ .obj kvs) → loadDb (.ok j) = .error ()) := by
  refine ⟨rfl, rfl, rfl, ?_, ?_⟩
  · intro kvs
    refine ⟨_, rfl, ?_, ?_, ?_, ?_⟩
    · rw [Json.lookup_setdefault_other _ _ _ _ (by decide),
        Json.lookup_setdefault_other _ _ _ _ (by decide),
        Json.lookup_setdefault_self]
    · rw [Json.lookup_setdefault_other _ _ _ _ (by decide),
        Json.lookup_setdefault_self,
        Json.lookup_setdefault_other _ _ _ _ (by decide)]
    · rw [Json.lookup_setdefault_self,
        Json.lookup_setdefault_other _ _ _ _ (by decide),
        Json.lookup_setdefault_other _ _ _ _ (by decide)]
    · intro k h1 h2 h3
      rw [Json.lookup_setdefault_other _ _ _ _ h3,
        Json.lookup_setdefault_other _ _ _ _ h2,
        Json.lookup_setdefault_other _ _ _ _ h1]
  · intro j hj
    cases j with
    | obj kvs => exact absurd rfl (hj kvs)
    | null => rfl
    | bool b => rfl
    | num n => rfl
    | str s => rfl
    | arr xs => rfl

/-- C1 counterexample: the claim says load never signals an error for any
input, but an input that parses to the JSON array `[]` makes `load_db`
raise an `AttributeError` from `data.setdefault`. -/
theorem loadDb_error_on_array_root :
    loadDb (Parsed.ok (Json.arr [])) = Except.error () := rfl

/-- Witness for `loadDb_spec`: a string root errors, and a concrete
object input gets defaults filled while its own key is preserved. -/
theorem loadDb_spec_witness :
    loadDb (Parsed.ok (Json.str "5")) = Except.error () ∧
    (∃ d, loadDb (Parsed.ok (Json.obj [("extra", Json.num 7)])) = .ok d ∧
      Json.lookup d "version" = some (Json.num 1) ∧
      Json.lookup d "extra" = some (Json.num 7)) := by
  have h := loadDb_spec
  refine ⟨h.2.2.2.2 (Json.str "5") ?_, ?_⟩
  · intro kvs hk
    exact Json.noConfusion hk
  · obtain ⟨d, hd, hv, _, _, hk⟩ := h.2.2.2.1 [("extra", Json.num 7)]
    refine ⟨d, hd, ?_, ?_⟩
    · simpa [Json.lookup] using hv
    · simpa [Json.lookup] using hk "extra" (by decide) (by decide) (by decide)

namespace Json

theorem lookup_setKey_self (kvs : List (String × Json)) (k : String)
    (v : Json) : lookup (setKey kvs k v) k = some v := by
  induction kvs with
  | nil => simp [setKey, lookup]
  | cons hd tl ih =>
      obtain ⟨k', v'⟩ := hd
      by_cases h : k' = k <;> simp [setKey, lookup, h, ih]

theorem lookup_setKey_other (kvs : List (String × Json)) (k k' : String)
    (v : Json) (hne : k' ≠ k) :
    lookup (setKey kvs k v) k' = lookup kvs k' := by
  induction kvs with
  | nil => simp [setKey, lookup, Ne.symm hne]
  | cons hd tl ih =>
      obtain ⟨k0, v0⟩ := hd
      by_cases h : k0 = k
      · subst h
        simp [setKey, lookup, Ne.symm hne]
      · by_cases h' : k0 = k' <;> simp [setKey, lookup, h, h', hne, ih]

end Json

/-- The current schema version, `VERSION = 1` in `storage.py`. -/
def VERSION : Int := 1

/-- The `int(raw_v)` coercion at the top of `migrate_db_data`: the version
value (defaulting to `VERSION` when the key is absent) as an integer,
falling back to `VERSION` when `int` raises. -/
def coercedVersion (db : List (String × Json)) : Int :=
  match Json.pyInt ((Json.lookup db "version").getD (Json.num VERSION)) with
  | some v => v
  | none => VERSION

/-- The two `setdefault` calls of `migrate_db_data`
(`db.setdefault("tasks", [])`, `db.setdefault("next_id", 1)`). -/
def migrateSetdefaults (db : List (String × Json)) : List (String × Json) :=
  Json.setdefault (Json.setdefault db "tasks" (Json.arr [])) "next_id"
    (Json.num 1)

/-- The `isinstance(db.get("tasks"), list)` repair step of
`migrate_db_data`, threading the notes list. -/
def migrateFixTasks (p : List (String × Json) × List String) :
    List (String × Json) × List String :=
  match Json.lookup p.1 "tasks" with
  | some (Json.arr _) => p
  | _ => (Json.setKey p.1 "tasks" (Json.arr []),
          p.2 ++ ["Reset tasks to empty list (invalid type)"])

/-- The `db["next_id"] = int(db.get("next_id", 1))` step of
`migrate_db_data`, with the `except` fallback to 1. -/
def migrateFixNextId (p : List (String × Json) × List String) :
    List (String × Json) × List String :=
  match Json.pyInt ((Json.lookup p.1 "next_id").getD (Json.num 1)) with
  | some n => (Json.setKey p.1 "next_id" (Json.num n), p.2)
  | none => (Json.setKey p.1 "next_id" (Json.num 1),
             p.2 ++ ["Reset next_id to 1 (invalid type)"])

/-- The `if db.get("version") != VERSION: db["version"] = VERSION` step of
`migrate_db_data`.  The Python `!=` comparison against the integer
`VERSION` is `pyEqNum` (so the boolean `True`, which Python deems equal
to 1, is left in place). -/
def migrateFixVersion (p : List (String × Json) × List String) :
    List (String × Json) × List String :=
  match Json.lookup p.1 "version" with
  | some v =>
      if Json.pyEqNum v VERSION then p
      else (Json.setKey p.1 "version" (Json.num VERSION),
            p.2 ++ ["Set version to 1"])
  | none => (Json.setKey p.1 "version" (Json.num VERSION),
             p.2 ++ ["Set version to 1"])

/-- The note recorded by `migrate_db_data` when the stored version fails
integer coercion. -/
def migrateNotes0 (db : List (String × Json)) : List String :=
  match Json.pyInt ((Json.lookup db "version").getD (Json.num VERSION)) with
  | some _ => []
  | none => ["Coerced invalid version"]

/-- `migrate_db_data` from `storage.py`: coerce the version, fail when it
is newer than `VERSION`, then normalize `tasks`, `next_id` and `version`
in place, collecting notes.  `Except.error` models the raised
`ValueError`. -/
def migrateDbData (db : List (String × Json)) :
    Except String (List (String × Json) × Int × Int × List String) :=
  if VERSION < coercedVersion db then
    .error "DB version is newer than supported version"
  else
    let p := migrateFixVersion (migrateFixNextId (migrateFixTasks
      (migrateSetdefaults db, migrateNotes0 db)))
    .ok (p.1, coercedVersion db, VERSION, p.2)

/-- `cmd_migrate` from `cli.py`, abstracted to the parsed file content:
`some db'` means the command wrote `db'` via `save_db`, `none` means the
command exited with an error before any write (missing file, JSON decode
error, non-object root, or `migrate_db_data` raising), leaving the
on-disk file unmodified. -/
def cmdMigrate (file : Parsed) : Option (List (String × Json)) :=
  match file with
  | .missing => none
  | .empty => none
  | .malformed => none
  | .ok (.obj kvs) =>
      match migrateDbData kvs with
      | .ok (db', _, _, _) => some db'
      | .error _ => none
  | .ok _ => none

theorem lookup_version_migrateSetdefaults (db : List (String × Json)) :
    Json.lookup (migrateSetdefaults db) "version" =
      Json.lookup db "version" := by
  unfold migrateSetdefaults
  rw [Json.lookup_setdefault_other _ _ _ _ (by decide),
    Json.lookup_setdefault_other _ _ _ _ (by decide)]

theorem lookup_version_migrateFixTasks
    (p : List (String × Json) × List String) :
    Json.lookup (migrateFixTasks p).1 "version" =
      Json.lookup p.1 "version" := by
  unfold migrateFixTasks
  split
  · rfl
  · exact Json.lookup_setKey_other _ _ _ _ (by decide)

theorem lookup_version_migrateFixNextId
    (p : List (String × Json) × List String) :
    Json.lookup (migrateFixNextId p).1 "version" =
      Json.lookup p.1 "version" := by
  unfold migrateFixNextId
  split <;> exact Json.lookup_setKey_other _ _ _ _ (by decide)

theorem lookup_version_migrateFixVersion
    (p : List (String × Json) × List String) :
    ∃ v, Json.lookup (migrateFixVersion p).1 "version" = some v ∧
      Json.pyEqNum v VERSION = true ∧
      (Json.lookup p.1 "version" = some v ∨ v = Json.num VERSION) := by
  unfold migrateFixVersion
  cases hv : Json.lookup p.1 "version" with
  | none =>
      exact ⟨Json.num VERSION, Json.lookup_setKey_self _ _ _, rfl,
        Or.inr rfl⟩
  | some v =>
      by_cases he : Json.pyEqNum v VERSION = true
      · exact ⟨v, by simp [he, hv], he, Or.inl rfl⟩
      · refine ⟨Json.num VERSION, ?_, rfl, Or.inr rfl⟩
        simp only [he, if_false]
        exact Json.lookup_setKey_self _ _ _

/-- C2 (amended): `migrate_db_data` fails (raising, and `cmd_migrate` then
exits without writing) exactly when the coerced version exceeds the
supported `VERSION = 1`; otherwise it succeeds, `cmd_migrate` writes the
migrated document, and the resulting `version` value is Python-equal to 1
— it is the stored value itself when that value already equals 1 by
Python comparison (the integer 1, or the boolean `true`), and the integer
1 freshly stamped in every other case. -/
theorem cmdMigrate_spec (kvs : List (String × Json)) :
    if VERSION < coercedVersion kvs then
      (∃ e, migrateDbData kvs = .error e) ∧
        cmdMigrate (.ok (.obj kvs)) = none
    else
      ∃ db' notes,
        migrateDbData kvs = .ok (db', coercedVersion kvs, VERSION, notes) ∧
        cmdMigrate (.ok (.obj kvs)) = some db' ∧
        ∃ v, Json.lookup db' "version" = some v ∧
          Json.pyEqNum v VERSION = true ∧
          (Json.lookup kvs "version" = some v ∨ v = Json.num VERSION) := by
  by_cases h : VERSION < coercedVersion kvs
  · simp only [h, if_true]
    constructor
    · exact ⟨"DB version is newer than supported version",
        by simp [migrateDbData, h]⟩
    · simp [cmdMigrate, migrateDbData, h]
  · simp only [h, if_false]
    refine ⟨(migrateFixVersion (migrateFixNextId (migrateFixTasks
        (migrateSetdefaults kvs, migrateNotes0 kvs)))).1,
      (migrateFixVersion (migrateFixNextId (migrateFixTasks
        (migrateSetdefaults kvs, migrateNotes0 kvs)))).2,
      by simp [migrateDbData, h], by simp [cmdMigrate, migrateDbData, h],
      ?_⟩
    obtain ⟨v, hv, he, hor⟩ := lookup_version_migrateFixVersion
      (migrateFixNextId (migrateFixTasks (migrateSetdefaults kvs,
        migrateNotes0 kvs)))
    refine ⟨v, hv, he, ?_⟩
    rcases hor with hl | hr
    · left
      rw [lookup_version_migrateFixNextId, lookup_version_migrateFixTasks,
        lookup_version_migrateSetdefaults] at hl
      exact hl
    · right
      exact hr

/-- C2 counterexample: the document `{"version": true}` has version at
most 1 (Python coerces `True` to 1), migrate succeeds on it, yet the
returned document still stores the boolean `true` — not the integer 1 —
because the stamping guard `db.get("version") != VERSION` is false for
`True` in Python. -/
theorem cmdMigrate_version_not_stamped :
    coercedVersion [("version", Json.bool true)] ≤ VERSION ∧
    migrateDbData [("version", Json.bool true)] =
      .ok ([("version", Json.bool true), ("tasks", Json.arr []),
            ("next_id", Json.num 1)], 1, 1, []) ∧
    Json.lookup [("version", Json.bool true), ("tasks", Json.arr []),
      ("next_id", Json.num 1)] "version" ≠ some (Json.num 1) := by
  refine ⟨by decide, rfl, fun h => ?_⟩
  exact Json.noConfusion (Option.some.inj h)

/-- Witness for `cmdMigrate_spec`: a version-2 document is rejected with
no write, and a version-1 document is migrated. -/
theorem cmdMigrate_spec_witness :
    cmdMigrate (.ok (.obj [("version", Json.num 2)])) = none ∧
    (∃ db' notes,
      migrateDbData [("version", Json.num 1)] =
        .ok (db', 1, VERSION, notes)) := by
  constructor
  · have h := cmdMigrate_spec [("version", Json.num 2)]
    rw [if_pos (by decide)] at h
    exact h.2
  · have h := cmdMigrate_spec [("version", Json.num 1)]
    rw [if_neg (by decide)] at h
    obtain ⟨db', notes, hm, -, -⟩ := h
    exact ⟨db', notes, hm⟩

/-- C3: for every Task whose `tags` field is an actual list (a valid
record), `from_dict (to_dict r) = r`; when all five bug fields of `r` are
empty none of them appears as a key of `to_dict r`, and every non-empty
bug field does appear. -/
theorem task_roundtrip_and_bug_fields (r : Task) (ts : List String)
    (htags : r.tags = some ts) :
    Task.fromDict (Task.toDict r) = r ∧
    (r.bug_status = "" ∧ r.bug_assignee = "" ∧ r.bug_severity = "" ∧
      r.bug_steps = "" ∧ r.bug_environment = "" →
      (Task.toDict r).bug_status = none ∧
      (Task.toDict r).bug_assignee = none ∧
      (Task.toDict r).bug_severity = none ∧
      (Task.toDict r).bug_steps = none ∧
      (Task.toDict r).bug_environment = none) ∧
    (r.bug_status ≠ "" → (Task.toDict r).bug_status = some r.bug_status) ∧
    (r.bug_assignee ≠ "" →
      (Task.toDict r).bug_assignee = some r.bug_assignee) ∧
    (r.bug_severity ≠ "" →
      (Task.toDict r).bug_severity = some r.bug_severity) ∧
    (r.bug_steps ≠ "" → (Task.toDict r).bug_steps = some r.bug_steps) ∧
    (r.bug_environment ≠ "" →
      (Task.toDict r).bug_environment = some r.bug_environment) := by
  have hbf : ∀ s : String, (Task.bugField s).getD "" = s := by
    intro s
    unfold Task.bugField
    split <;> simp_all
  refine ⟨?_, ?_, ?_, ?_, ?_, ?_, ?_⟩
  · cases r
    simp_all [Task.fromDict, Task.toDict, hbf]
  · rintro ⟨h1, h2, h3, h4, h5⟩
    simp [Task.toDict, Task.bugField, h1, h2, h3, h4, h5]
  all_goals intro h; simp [Task.toDict, Task.bugField, h]

/-- A concrete record used to witness the round-trip theorem. -/
def sampleBugTask : Task :=
  { id := 3, text := "fix login", tags := some ["bug"],
    bug_severity := "high" }

/-- Witness for `task_roundtrip_and_bug_fields` at a concrete record with
one bug field set. -/
theorem task_roundtrip_witness :
    Task.fromDict (Task.toDict sampleBugTask) = sampleBugTask ∧
    (Task.toDict sampleBugTask).bug_severity = some "high" := by
  have h := task_roundtrip_and_bug_fields sampleBugTask ["bug"] rfl
  exact ⟨h.1, h.2.2.2.2.1 (by decide)⟩

/-- A well-formed document as loaded via `load_tasks` / `load_db`:
schema version, next-id counter and task list. -/
structure Doc where
  version : Int
  nextId : Int
  tasks : List TaskDict
  deriving Repr, DecidableEq

/-- `max(int(t.get("id", 0)) for t in existing) if existing else 0` in
`append_tasks_to_archive`. -/
def listMaxId (ds : List TaskDict) : Int :=
  match ds.map TaskDict.id with
  | [] => 0
  | x :: xs => xs.foldl max x

/-- The archive `next_id` value the spec sentence prescribes:
`max(existing archive ids, appended ids) + 1`. -/
def specArchiveNextId (adb : Doc) (ts : List Task) : Int :=
  listMaxId (adb.tasks ++ ts.map Task.toDict) + 1

/-- `append_tasks_to_archive` from `storage.py`: no-op on an empty task
list, otherwise extend the archive task list with the encoded tasks,
recompute `next_id` as the maximum of its stored value and the maximal
id plus one, and return the appended count. -/
def appendTasksToArchive (adb : Doc) (ts : List Task) : Doc × Nat :=
  if ts.isEmpty then (adb, 0)
  else
    let existing := adb.tasks ++ ts.map Task.toDict
    let maxId := listMaxId existing
    ({ version := adb.version, nextId := max adb.nextId (maxId + 1),
       tasks := existing }, ts.length)

/-- `_archive_done_tasks` from `cli.py`, over the loaded primary state
`(next_id, tasks)` and the loaded archive document: filter the done
tasks, append them to the archive, drop them from the primary.  Returns
the new primary state, the new archive document and the moved count. -/
def archiveDoneTasks (nextId : Int) (tasks : List Task) (archive : Doc) :
    (Int × List Task) × Doc × Nat :=
  let doneTasks := tasks.filter (fun t => t.done)
  if doneTasks.isEmpty then ((nextId, tasks), archive, 0)
  else
    let r := appendTasksToArchive archive doneTasks
    ((nextId, tasks.filter (fun t => !t.done)), r.1, r.2)

/-- C4: an archive-done operation conserves the total task count, appends
the moved records verbatim at the end of the archive (ids unchanged, no
renumbering, no deduplication against existing archive ids), and returns
the number of records moved. -/
theorem archiveDone_conservation (nextId : Int) (tasks : List Task)
    (archive : Doc) :
    ((archiveDoneTasks nextId tasks archive).1.2.length +
        (archiveDoneTasks nextId tasks archive).2.1.tasks.length =
      tasks.length + archive.tasks.length) ∧
    ((archiveDoneTasks nextId tasks archive).2.1.tasks =
      archive.tasks ++ (tasks.filter (fun t => t.done)).map Task.toDict) ∧
    ((archiveDoneTasks nextId tasks archive).2.1.tasks.map TaskDict.id =
      archive.tasks.map TaskDict.id ++
        (tasks.filter (fun t => t.done)).map Task.id) ∧
    ((archiveDoneTasks nextId tasks archive).2.2 =
      (tasks.filter (fun t => t.done)).length) := by
  have hid : ∀ t : Task, (Task.toDict t).id = t.id := fun t => rfl
  have hlen : tasks.length = (tasks.filter (fun t => t.done)).length +
      (tasks.filter (fun t => !t.done)).length := by
    simpa using @List.length_eq_length_filter_add Task tasks
      (fun t => t.done)
  unfold archiveDoneTasks appendTasksToArchive
  by_cases h : (tasks.filter (fun t => t.done)).isEmpty
  · have h0 : tasks.filter (fun t => t.done) = [] :=
      List.isEmpty_iff.mp h
    simp [h, h0]
  · rw [Bool.not_eq_true] at h
    simp only [h, Bool.false_eq_true, if_false]
    refine ⟨?_, trivial, ?_, trivial⟩
    · simp only [List.length_append, List.length_map]
      omega
    · simp only [List.map_append, List.map_map]
      rfl

/-- C5 (amended): when an archive-done append moves at least one record,
the archive `next_id` becomes the maximum of its previous value and
`max(existing archive ids, appended ids) + 1` — the stored `next_id`
is never decreased, so it exceeds the spec formula whenever it was
already larger. -/
theorem appendTasksToArchive_nextId (adb : Doc) (ts : List Task)
    (h : ts ≠ []) :
    (appendTasksToArchive adb ts).1.nextId =
      max adb.nextId (specArchiveNextId adb ts) := by
  unfold appendTasksToArchive specArchiveNextId
  simp [h]

/-- Witness for `appendTasksToArchive_nextId` at a concrete archive and
one appended record. -/
theorem appendTasksToArchive_nextId_witness :
    (appendTasksToArchive ⟨1, 100, []⟩ [{ id := 1, text := "t" }]).1.nextId
      = max 100 (specArchiveNextId ⟨1, 100, []⟩ [{ id := 1, text := "t" }])
    := by
  exact appendTasksToArchive_nextId ⟨1, 100, []⟩ [{ id := 1, text := "t" }]
    (by simp)

/-- C5 counterexample: an empty archive whose stored `next_id` is 100
receives a record with id 1; the spec formula says the new `next_id`
should be 2, but the code keeps 100. -/
theorem appendTasksToArchive_nextId_not_spec :
    (appendTasksToArchive ⟨1, 100, []⟩ [{ id := 1, text := "t" }]).1.nextId
        = 100 ∧
    specArchiveNextId ⟨1, 100, []⟩ [{ id := 1, text := "t" }] = 2 ∧
    (100 : Int) ≠ 2 := by
  refine ⟨rfl, rfl, by decide⟩

/-- The slice of the filesystem that `save_db` touches for one database
path P: the main file and the numbered backup files `P.1`, `P.2`, ...
(`bk i` is the content of `P.i`, `none` meaning the file does not
exist). -/
structure Fs (α : Type) where
  main : Option α
  bk : Nat → Option α

/-- One iteration of the backup shift loop in `rotate_backups`: if
`P.(i-1)` exists, `os.replace` moves it to `P.i` (the source disappears);
otherwise nothing happens. -/
def shiftBackup (fs : Fs α) (i : Nat) : Fs α :=
  match fs.bk (i - 1) with
  | some v =>
      { fs with bk := fun j =>
          if j = i then some v else if j = i - 1 then none else fs.bk j }
  | none => fs

/-- `rotate_backups` from `storage.py`: no-op when `keep <= 0` or the
main file does not exist; otherwise shift `P.(i-1)` to `P.i` for
`i = keep, ..., 2`, then copy (`shutil.copy2`, source retained) the
current main content to `P.1`. -/
def rotateBackups (keep : Nat) (fs : Fs α) : Fs α :=
  if keep = 0 then fs
  else if fs.main.isNone then fs
  else
    let fs' := ((List.range' 2 (keep - 1)).reverse).foldl shiftBackup fs
    { fs' with bk := fun j => if j = 1 then fs'.main else fs'.bk j }

/-- `save_db` from `storage.py`: rotate backups (with the default
`keep = 5`), then atomically write the new content to the main file. -/
def saveDb (fs : Fs α) (d : α) : Fs α :=
  let fs1 := rotateBackups 5 fs
  { fs1 with main := some d }

/-- The state of a fresh path: no main file, no backups. -/
def freshFs : Fs α := ⟨none, fun _ => none⟩

/-- C6: writing twice to a fresh path produces a `.1` backup whose
content is exactly the document written first (the state immediately
before the second write), while the first write — creation of a
brand-new document — produces no backup at all. -/
theorem saveDb_twice_backup {α : Type} (d1 d2 : α) :
    ((saveDb (freshFs : Fs α) d1).main = some d1 ∧
      ∀ i, (saveDb (freshFs : Fs α) d1).bk i = none) ∧
    ((saveDb (saveDb (freshFs : Fs α) d1) d2).main = some d2 ∧
      (saveDb (saveDb (freshFs : Fs α) d1) d2).bk 1 = some d1) :=
  ⟨⟨rfl, fun _ => rfl⟩, rfl, rfl⟩

/-- `PRIORITY_ORDER` from `storage.py`:
`{"high": 0, "med": 1, "low": 2, "": 3, None: 3}` read through
`.get(priority, 3)`, so any other string also maps to 3. -/
def PRIORITY_ORDER (p : String) : Nat :=
  if p = "high" then 0 else if p = "med" then 1 else
    if p = "low" then 2 else 3

/-- The sort key tuple of the `sort == "due"` branch of `sort_tasks`:
`(bucket, days_until, priority rank, id)` with bucket 0 = overdue,
1 = due today or later, 2 = no/invalid due date.  `parseIso` abstracts
`datetime.date.fromisoformat` (dates as day numbers, `none` = the
`ValueError` branch) and `today` abstracts `date.today()`. -/
def dueKey (parseIso : String → Option Int) (today : Int) (t : Task) :
    Nat × Int × Nat × Int :=
  let s := t.due.trim
  if s = "" then (2, 10 ^ 9, PRIORITY_ORDER t.priority, t.id)
  else
    match parseIso s with
    | none => (2, 10 ^ 9, PRIORITY_ORDER t.priority, t.id)
    | some d =>
        let daysUntil := d - today
        (if daysUntil < 0 then 0 else 1, daysUntil,
          PRIORITY_ORDER t.priority, t.id)

/-- Python tuple `<=` on the sort key (lexicographic), as a Prop. -/
def keyLeP (a b : Nat × Int × Nat × Int) : Prop :=
  a.1 < b.1 ∨ (a.1 = b.1 ∧ (a.2.1 < b.2.1 ∨ (a.2.1 = b.2.1 ∧
    (a.2.2.1 < b.2.2.1 ∨ (a.2.2.1 = b.2.2.1 ∧ a.2.2.2 ≤ b.2.2.2)))))

instance (a b : Nat × Int × Nat × Int) : Decidable (keyLeP a b) := by
  unfold keyLeP
  infer_instance

/-- The `sort == "due"` branch of `sort_tasks` from `storage.py`:
Python `sorted` with key `due_key` is a stable merge sort by the
lexicographic order on key tuples. -/
def sortTasksDue (parseIso : String → Option Int) (today : Int)
    (tasks : List Task) : List Task :=
  tasks.mergeSort (fun a b =>
    decide (keyLeP (dueKey parseIso today a) (dueKey parseIso today b)))

theorem keyLeP_trans (a b c : Nat × Int × Nat × Int) (hab : keyLeP a b)
    (hbc : keyLeP b c) : keyLeP a c := by
  obtain ⟨a1, a2, a3, a4⟩ := a
  obtain ⟨b1, b2, b3, b4⟩ := b
  obtain ⟨c1, c2, c3, c4⟩ := c
  simp only [keyLeP] at *
  omega

theorem keyLeP_total (a b : Nat × Int × Nat × Int) :
    keyLeP a b ∨ keyLeP b a := by
  obtain ⟨a1, a2, a3, a4⟩ := a
  obtain ⟨b1, b2, b3, b4⟩ := b
  simp only [keyLeP] at *
  omega

/-- C7: sorting by due date permutes the task list into an order where
the key tuples `(bucket, days-until-due, priority rank, id)` are
non-decreasing: every overdue task (bucket 0, negative days-until-due)
comes before every upcoming task (bucket 1, non-negative days-until-due),
which comes before every task with an absent or invalid due date
(bucket 2), and within a bucket tasks are ordered by ascending
days-until-due, then priority (high, med, low, then none/other), then
id. -/
theorem sortTasksDue_spec (parseIso : String → Option Int) (today : Int)
    (tasks : List Task) :
    (sortTasksDue parseIso today tasks).Perm tasks ∧
    List.Pairwise (fun a b =>
        keyLeP (dueKey parseIso today a) (dueKey parseIso today b))
      (sortTasksDue parseIso today tasks) := by
  constructor
  · exact List.mergeSort_perm tasks _
  · have h := @List.sorted_mergeSort Task
      (fun a b : Task =>
        decide (keyLeP (dueKey parseIso today a) (dueKey parseIso today b)))
      (fun a b c hab hbc => decide_eq_true
        (keyLeP_trans _ _ _ (of_decide_eq_true hab) (of_decide_eq_true hbc)))
      (fun a b => by
        rcases keyLeP_total (dueKey parseIso today a)
            (dueKey parseIso today b) with h | h <;>
          simp [h])
      tasks
    exact h.imp (fun hd => of_decide_eq_true hd)

/-- `sorted(set(...))` on a list of strings, as used by `cmd_tag`:
deduplicate, then sort lexicographically. -/
def pySortedSet (l : List String) : List String :=
  l.dedup.mergeSort (fun a b => decide (a ≤ b))

/-- The tag-list update of `cmd_tag` in `cli.py`:
`tags = set(t.tags or [])`, then `tags.add(args.tag)` or
`tags.discard(args.tag)`, then `t.tags = sorted(tags)`. -/
def cmdTagTags (tags : Option (List String)) (isAdd : Bool)
    (tag : String) : List String :=
  let base := tags.getD []
  if isAdd then pySortedSet (base ++ [tag])
  else pySortedSet (base.filter (fun x => x ≠ tag))

/-- The in-memory primary document state that the mutating commands load
via `load_tasks` and persist via `save_tasks`. -/
structure DbState where
  nextId : Int
  tasks : List Task
  deriving Repr

/-- The mutating commands of `cli.py` on the primary document, with the
ambient inputs (current timestamp, parsed dates, argument strings) as
parameters.  `bugAdd` models `cmd_bug_add` (the literal backslash-n
expansion of the steps text is folded into the `steps` parameter). -/
inductive Op where
  | add (text p due : String) (tags : List String) (ca : String)
  | bugAdd (text p due : String) (tags : List String)
      (ca status assignee severity steps env : String)
  | markDone (i : Int) (ts : String)
  | markUndone (i : Int)
  | rm (i : Int)
  | edit (i : Int) (text : String)
  | setPri (i : Int) (p : String)
  | setDue (i : Int) (d : String)
  | tagOp (i : Int) (isAdd : Bool) (tag : String)
  | clearDone

/-- `find_task` followed by an in-place field mutation: the first task
whose id matches is replaced by `f t`; when no task matches, the command
raises before saving, which leaves the task list unchanged — exactly
what this function returns in that case. -/
def updateFirst (i : Int) (f : Task → Task) : List Task → List Task
  | [] => []
  | t :: ts => if t.id = i then f t :: ts else t :: updateFirst i f ts

/-- One mutating command as a transition on the loaded `(next_id, tasks)`
state, following `cmd_add`, `cmd_bug_add`, `cmd_done`, `cmd_rm`,
`cmd_edit`, `cmd_pri`, `cmd_due`, `cmd_tag`, `cmd_clear_done --force` and
`_archive_done_tasks` (primary side) in `cli.py`. -/
def applyOp (s : DbState) : Op → DbState
  | .add text p due tags ca =>
      ⟨s.nextId + 1, s.tasks ++
        [{ id := s.nextId, text := text.trim, done := false,
           created_at := ca, priority := p.toLower, due := due,
           tags := some tags }]⟩
  | .bugAdd text p due tags ca status assignee severity steps env =>
      ⟨s.nextId + 1, s.tasks ++
        [{ id := s.nextId, text := text.trim, done := false,
           created_at := ca, priority := p.toLower, due := due,
           tags := some (tags ++ ["bug"]),
           bug_status := if status = "" then "open" else status,
           bug_assignee := assignee, bug_severity := severity.toLower,
           bug_steps := steps, bug_environment := env }]⟩
  | .markDone i ts =>
      ⟨s.nextId,
        updateFirst i (fun t => { t with done := true, done_at := ts })
          s.tasks⟩
  | .markUndone i =>
      ⟨s.nextId,
        updateFirst i (fun t => { t with done := false, done_at := "" })
          s.tasks⟩
  | .rm i => ⟨s.nextId, s.tasks.filter (fun t => t.id ≠ i)⟩
  | .edit i text =>
      ⟨s.nextId,
        updateFirst i (fun t => { t with text := text.trim }) s.tasks⟩
  | .setPri i p =>
      ⟨s.nextId,
        updateFirst i (fun t => { t with priority := p.toLower }) s.tasks⟩
  | .setDue i d =>
      ⟨s.nextId, updateFirst i (fun t => { t with due := d }) s.tasks⟩
  | .tagOp i isAdd tag =>
      ⟨s.nextId,
        updateFirst i
          (fun t => { t with tags := some (cmdTagTags t.tags isAdd tag) })
          s.tasks⟩
  | .clearDone => ⟨s.nextId, s.tasks.filter (fun t => !t.done)⟩

/-- The state of a brand-new document: `next_id = 1`, no tasks. -/
def emptyState : DbState := ⟨1, []⟩

/-- Whether an operation is one of the two record-creating commands. -/
def isAddOp : Op → Bool
  | .add .. => true
  | .bugAdd .. => true
  | _ => false

theorem pySortedSet_sorted (l : List String) :
    List.Sorted (· ≤ ·) (pySortedSet l) := by
  have h := @List.sorted_mergeSort String
    (fun a b : String => decide (a ≤ b))
    (fun a b c hab hbc => decide_eq_true
      (le_trans (of_decide_eq_true hab) (of_decide_eq_true hbc)))
    (fun a b => by rcases le_total a b with h | h <;> simp [h])
    l.dedup
  exact h.imp (fun hd => of_decide_eq_true hd)

theorem pySortedSet_nodup (l : List String) : (pySortedSet l).Nodup :=
  (List.mergeSort_perm l.dedup _).nodup_iff.mpr (List.nodup_dedup l)

/-- C8 (amended): the records persisted by tag add and tag delete carry a
sorted, deduplicated tag sequence, but `cmd_add` persists the given tag
list verbatim — unsorted and with duplicates intact — so the sortedness
guarantee holds only for the tag commands, not for add. -/
theorem tag_mutations_sorted_dedup :
    (∀ tags isAdd tag, List.Sorted (· ≤ ·) (cmdTagTags tags isAdd tag) ∧
      (cmdTagTags tags isAdd tag).Nodup) ∧
    (∀ s text p due tags ca, ∃ t : Task,
      (applyOp s (.add text p due tags ca)).tasks = s.tasks ++ [t] ∧
      t.tags = some tags) := by
  constructor
  · intro tags isAdd tag
    unfold cmdTagTags
    split <;> exact ⟨pySortedSet_sorted _, pySortedSet_nodup _⟩
  · intro s text p due tags ca
    exact ⟨_, rfl, rfl⟩

/-- C8 counterexample: adding a task with tags `["b", "a"]` persists the
record with exactly that tag list, which is neither sorted nor required
to be duplicate-free. -/
theorem cmdAdd_tags_unsorted :
    (applyOp emptyState (Op.add "x" "" "" ["b", "a"] "t0")).tasks.map
      (fun t => t.tags) = [some ["b", "a"]] ∧
    ¬ (List.Sorted (· ≤ ·) ["b", "a"] ∧ List.Nodup ["b", "a"]) := by
  constructor
  · rfl
  · rintro ⟨hs, -⟩
    have hba : ("b" : String) ≤ "a" :=
      List.rel_of_sorted_cons hs _ (by simp)
    rw [String.le_iff_toList_le] at hba
    exact absurd hba (by decide)

theorem updateFirst_map_id (i : Int) (f : Task → Task)
    (hf : ∀ t, (f t).id = t.id) (ts : List Task) :
    (updateFirst i f ts).map Task.id = ts.map Task.id := by
  induction ts with
  | nil => rfl
  | cons t ts ih =>
      by_cases h : t.id = i <;> simp [updateFirst, h, hf, ih]

theorem mem_updateFirst (i : Int) (f : Task → Task) (ts : List Task)
    (t' : Task) (h : t' ∈ updateFirst i f ts) :
    t' ∈ ts ∨ ∃ t, t ∈ ts ∧ t' = f t := by
  induction ts with
  | nil => simp [updateFirst] at h
  | cons t ts ih =>
      unfold updateFirst at h
      by_cases hid : t.id = i
      · simp only [hid, if_true, List.mem_cons] at h
        rcases h with h | h
        · exact Or.inr ⟨t, List.mem_cons_self t ts, h⟩
        · exact Or.inl (List.mem_cons_of_mem t h)
      · simp only [hid, if_false, List.mem_cons] at h
        rcases h with h | h
        · exact Or.inl (h ▸ List.mem_cons_self t ts)
        · rcases ih h with h' | ⟨t0, ht0, he⟩
          · exact Or.inl (List.mem_cons_of_mem t h')
          · exact Or.inr ⟨t0, List.mem_cons_of_mem t ht0, he⟩

/-- The id/counter invariant of a document: ids positive and unique,
every id below `next_id`, and the counter at least 1. -/
def Inv (s : DbState) : Prop :=
  (∀ t ∈ s.tasks, 0 < t.id) ∧ (s.tasks.map Task.id).Nodup ∧
  (∀ t ∈ s.tasks, t.id < s.nextId) ∧ 1 ≤ s.nextId

theorem inv_updateFirst (s : DbState) (i : Int) (f : Task → Task)
    (hf : ∀ t, (f t).id = t.id) (h : Inv s) :
    Inv ⟨s.nextId, updateFirst i f s.tasks⟩ := by
  obtain ⟨hpos, hnd, hlt, hn⟩ := h
  refine ⟨?_, ?_, ?_, hn⟩
  · intro t' ht'
    rcases mem_updateFirst i f s.tasks t' ht' with hm | ⟨t0, ht0, he⟩
    · exact hpos t' hm
    · rw [he, hf]
      exact hpos t0 ht0
  · rw [updateFirst_map_id i f hf]
    exact hnd
  · intro t' ht'
    rcases mem_updateFirst i f s.tasks t' ht' with hm | ⟨t0, ht0, he⟩
    · exact hlt t' hm
    · rw [he, hf]
      exact hlt t0 ht0

theorem inv_filter (s : DbState) (p : Task → Bool) (h : Inv s) :
    Inv ⟨s.nextId, s.tasks.filter p⟩ := by
  obtain ⟨hpos, hnd, hlt, hn⟩ := h
  refine ⟨?_, ?_, ?_, hn⟩
  · intro t ht
    exact hpos t (List.mem_of_mem_filter ht)
  · exact List.Nodup.sublist ((s.tasks.filter_sublist).map Task.id) hnd
  · intro t ht
    exact hlt t (List.mem_of_mem_filter ht)

theorem inv_append_new (s : DbState) (t : Task) (hid : t.id = s.nextId)
    (h : Inv s) : Inv ⟨s.nextId + 1, s.tasks ++ [t]⟩ := by
  obtain ⟨hpos, hnd, hlt, hn⟩ := h
  refine ⟨?_, ?_, ?_, by dsimp only; omega⟩
  · intro t' ht'
    rcases List.mem_append.mp ht' with hm | hm
    · exact hpos t' hm
    · rw [List.mem_singleton.mp hm, hid]
      omega
  · rw [List.map_append]
    rw [List.nodup_append]
    refine ⟨hnd, List.nodup_singleton _, ?_⟩
    intro a ha hb
    rw [List.map_singleton, List.mem_singleton] at hb
    obtain ⟨t0, ht0, he⟩ := List.mem_map.mp ha
    have := hlt t0 ht0
    omega
  · intro t' ht'
    dsimp only at ht' ⊢
    rcases List.mem_append.mp ht' with hm | hm
    · have := hlt t' hm
      omega
    · rw [List.mem_singleton.mp hm, hid]
      omega

theorem applyOp_preserves_inv (s : DbState) (op : Op) (h : Inv s) :
    Inv (applyOp s op) := by
  cases op with
  | add text p due tags ca => exact inv_append_new s _ rfl h
  | bugAdd text p due tags ca status assignee severity steps env =>
      exact inv_append_new s _ rfl h
  | markDone i ts => exact inv_updateFirst s i _ (fun t => rfl) h
  | markUndone i => exact inv_updateFirst s i _ (fun t => rfl) h
  | rm i => exact inv_filter s _ h
  | edit i text => exact inv_updateFirst s i _ (fun t => rfl) h
  | setPri i p => exact inv_updateFirst s i _ (fun t => rfl) h
  | setDue i d => exact inv_updateFirst s i _ (fun t => rfl) h
  | tagOp i isAdd tag => exact inv_updateFirst s i _ (fun t => rfl) h
  | clearDone => exact inv_filter s _ h

theorem foldl_preserves_inv (ops : List Op) (s : DbState) (h : Inv s) :
    Inv (ops.foldl applyOp s) := by
  induction ops generalizing s with
  | nil => exact h
  | cons op ops ih => exact ih (applyOp s op) (applyOp_preserves_inv s op h)

/-- C9: starting from the empty document, any sequence of mutating
operations yields a document whose record ids are positive and unique
and whose `next_id` strictly exceeds every id present; moreover the two
add commands assign `id = next_id` to the appended record and bump
`next_id` by one, while every other mutating operation keeps `next_id`
and introduces no id that was not already present. -/
theorem opSequences_id_invariants :
    (∀ ops : List Op,
      (∀ t ∈ (ops.foldl applyOp emptyState).tasks, 0 < t.id) ∧
      ((ops.foldl applyOp emptyState).tasks.map Task.id).Nodup ∧
      (∀ t ∈ (ops.foldl applyOp emptyState).tasks,
        t.id < (ops.foldl applyOp emptyState).nextId)) ∧
    (∀ s op, isAddOp op = true →
      (applyOp s op).nextId = s.nextId + 1 ∧
      ∃ t, (applyOp s op).tasks = s.tasks ++ [t] ∧ t.id = s.nextId) ∧
    (∀ s op, isAddOp op = false →
      (applyOp s op).nextId = s.nextId ∧
      ∀ t ∈ (applyOp s op).tasks, t.id ∈ s.tasks.map Task.id) := by
  refine ⟨?_, ?_, ?_⟩
  · intro ops
    have h0 : Inv emptyState := by
      refine ⟨?_, ?_, ?_, ?_⟩
      · intro t ht
        cases ht
      · exact List.nodup_nil
      · intro t ht
        cases ht
      · exact le_refl 1
    have h := foldl_preserves_inv ops emptyState h0
    exact ⟨h.1, h.2.1, h.2.2.1⟩
  · intro s op hop
    cases op with
    | add text p due tags ca => exact ⟨rfl, _, rfl, rfl⟩
    | bugAdd text p due tags ca status assignee severity steps env =>
        exact ⟨rfl, _, rfl, rfl⟩
    | markDone i ts => exact Bool.noConfusion hop
    | markUndone i => exact Bool.noConfusion hop
    | rm i => exact Bool.noConfusion hop
    | edit i text => exact Bool.noConfusion hop
    | setPri i p => exact Bool.noConfusion hop
    | setDue i d => exact Bool.noConfusion hop
    | tagOp i isAdd tag => exact Bool.noConfusion hop
    | clearDone => exact Bool.noConfusion hop
  · intro s op hop
    have hmem : ∀ (i : Int) (f : Task → Task), (∀ t, (f t).id = t.id) →
        ∀ t' ∈ updateFirst i f s.tasks, t'.id ∈ s.tasks.map Task.id := by
      intro i f hf t' ht'
      rcases mem_updateFirst i f s.tasks t' ht' with hm | ⟨t0, ht0, he⟩
      · exact List.mem_map.mpr ⟨t', hm, rfl⟩
      · exact List.mem_map.mpr ⟨t0, ht0, by rw [he, hf]⟩
    cases op with
    | add text p due tags ca => exact Bool.noConfusion hop
    | bugAdd text p due tags ca status assignee severity steps env =>
        exact Bool.noConfusion hop
    | markDone i ts => exact ⟨rfl, hmem i _ (fun t => rfl)⟩
    | markUndone i => exact ⟨rfl, hmem i _ (fun t => rfl)⟩
    | rm i =>
        refine ⟨rfl, fun t ht => ?_⟩
        exact List.mem_map.mpr ⟨t, List.mem_of_mem_filter ht, rfl⟩
    | edit i text => exact ⟨rfl, hmem i _ (fun t => rfl)⟩
    | setPri i p => exact ⟨rfl, hmem i _ (fun t => rfl)⟩
    | setDue i d => exact ⟨rfl, hmem i _ (fun t => rfl)⟩
    | tagOp i isAdd tag => exact ⟨rfl, hmem i _ (fun t => rfl)⟩
    | clearDone =>
        refine ⟨rfl, fun t ht => ?_⟩
        exact List.mem_map.mpr ⟨t, List.mem_of_mem_filter ht, rfl⟩

/-- Witness for `opSequences_id_invariants`: a concrete add bumps the
counter to 2 and a concrete non-add (mark done) keeps it at 1. -/
theorem opSequences_id_invariants_witness :
    (([Op.add "a" "" "" [] "t1"].foldl applyOp
      emptyState).tasks.map Task.id).Nodup ∧
    (applyOp emptyState (Op.add "a" "" "" [] "t1")).nextId = 2 ∧
    (applyOp emptyState (Op.markDone 1 "ts")).nextId = 1 := by
  have h := opSequences_id_invariants
  refine ⟨(h.1 [Op.add "a" "" "" [] "t1"]).2.1, ?_, ?_⟩
  · have := (h.2.1 emptyState (Op.add "a" "" "" [] "t1") rfl).1
    rw [this]
    rfl
  · exact (h.2.2 emptyState (Op.markDone 1 "ts") rfl).1

mutual

/-- Python `repr(x)` of a JSON value (as used by `str` on containers). -/
def pyRepr : Json → String
  | .null => "None"
  | .bool true => "True"
  | .bool false => "False"
  | .num n => toString n
  | .str s => "\x27" ++ s ++ "\x27"
  | .arr xs => "[" ++ pyReprSeq xs ++ "]"
  | .obj kvs => "\x7b" ++ pyReprPairs kvs ++ "\x7d"

def pyReprSeq : List Json → String
  | [] => ""
  | [x] => pyRepr x
  | x :: y :: xs => pyRepr x ++ ", " ++ pyReprSeq (y :: xs)

def pyReprPairs : List (String × Json) → String
  | [] => ""
  | [(k, v)] => "\x27" ++ k ++ "\x27: " ++ pyRepr v
  | (k, v) :: kv :: kvs =>
      "\x27" ++ k ++ "\x27: " ++ pyRepr v ++ ", " ++ pyReprPairs (kv :: kvs)

end

/-- Python `str(x)` of a JSON value: a string is itself, anything else is
its repr. -/
def pyStr : Json → String
  | .str s => s
  | .null => pyRepr .null
  | .bool b => pyRepr (.bool b)
  | .num n => pyRepr (.num n)
  | .arr xs => pyRepr (.arr xs)
  | .obj kvs => pyRepr (.obj kvs)

def isLeapYear (y : Int) : Bool :=
  (y % 4 == 0 && y % 100 != 0) || y % 400 == 0

def daysInMonth (y m : Int) : Int :=
  if m = 2 then (if isLeapYear y then 29 else 28)
  else if m = 4 ∨ m = 6 ∨ m = 9 ∨ m = 11 then 30 else 31

def digitsVal (cs : List Char) : Int :=
  cs.foldl (fun acc c => acc * 10 + ((c.toNat : Int) - 48)) 0

/-- Success of `datetime.date.fromisoformat` on the canonical
`YYYY-MM-DD` form (the format the repository writes): four digit year at
least 1, valid month, valid day of month. -/
def isValidIsoDate (s : String) : Bool :=
  match s.toList with
  | [y1, y2, y3, y4, h1, m1, m2, h2, d1, d2] =>
      [y1, y2, y3, y4, m1, m2, d1, d2].all Char.isDigit &&
      (h1 == '-') && (h2 == '-') &&
      (let y := digitsVal [y1, y2, y3, y4]
       let m := digitsVal [m1, m2]
       let d := digitsVal [d1, d2]
       decide (1 ≤ y ∧ 1 ≤ m ∧ m ≤ 12 ∧ 1 ≤ d ∧ d ≤ daysInMonth y m))
  | _ => false

/-- The `priority` normalization of `cmd_doctor` (fix mode): lowercase,
strip, and reset to the empty string when outside the enum. -/
def doctorPriority (j : Option Json) : String :=
  let p := (pyStr (j.getD (Json.str ""))).toLower.trim
  if p = "" ∨ p = "low" ∨ p = "med" ∨ p = "high" then p else ""

/-- The `due` normalization of `cmd_doctor` (fix mode): strip, and reset
to the empty string when non-empty but not a valid ISO date. -/
def doctorDue (j : Option Json) : String :=
  let due := (pyStr (j.getD (Json.str ""))).trim
  if due ≠ "" ∧ ¬ isValidIsoDate due then "" else due

/-- The `tags` normalization of `cmd_doctor` (fix mode): `None` becomes
`[]`; a list of strings is kept; a list with non-strings is coerced
element-wise by `str`; a non-list becomes `[]`. -/
def doctorTags (j : Option Json) : List String :=
  match j.getD (Json.arr []) with
  | Json.null => []
  | Json.arr xs =>
      if xs.all (fun x => match x with | Json.str _ => true | _ => false)
      then xs.map (fun x => match x with | Json.str s => s | _ => "")
      else xs.map pyStr
  | _ => []

/-- The list of keys `cmd_doctor --fix` writes for every repaired
record, in order. -/
def doctorKeys : List String :=
  ["id", "text", "done", "created_at", "done_at", "priority", "due",
   "tags"]

/-- The repaired-record dict literal built inside the `cmd_doctor` task
loop: exactly the eight schema fields, with the normalized values. -/
def doctorTaskFields (kvs : List (String × Json)) (tid : Int) :
    List (String × Json) :=
  [("id", Json.num tid),
   ("text", Json.str
     ((pyStr ((Json.lookup kvs "text").getD (Json.str ""))).trim)),
   ("done", Json.bool
     (Json.pyBool ((Json.lookup kvs "done").getD (Json.bool false)))),
   ("created_at", Json.str
     (pyStr ((Json.lookup kvs "created_at").getD (Json.str "")))),
   ("done_at", Json.str
     (pyStr ((Json.lookup kvs "done_at").getD (Json.str "")))),
   ("priority", Json.str (doctorPriority (Json.lookup kvs "priority"))),
   ("due", Json.str (doctorDue (Json.lookup kvs "due"))),
   ("tags", Json.arr ((doctorTags (Json.lookup kvs "tags")).map
     Json.str))]

/-- The running state of the `cmd_doctor` task loop: repaired records,
ids seen so far, maximal id kept. -/
structure DoctorSt where
  repaired : List (List (String × Json))
  seen : List Int
  maxId : Int

/-- The repaired id of one task in the `cmd_doctor` loop: integer
coercion of `t.get("id", 0)` with fallback 0, then zeroed when
non-positive or already seen. -/
def doctorTid (st : DoctorSt) (kvs : List (String × Json)) : Int :=
  let tid0 :=
    match Json.pyInt ((Json.lookup kvs "id").getD (Json.num 0)) with
    | some v => v
    | none => 0
  if tid0 ≤ 0 ∨ tid0 ∈ st.seen then 0 else tid0

/-- One iteration of the `cmd_doctor` task loop in fix mode: non-object
entries are skipped; an id that fails integer coercion, is non-positive
or duplicates an earlier one is zeroed for later reassignment; otherwise
the id is kept and recorded. -/
def doctorStep (st : DoctorSt) (t : Json) : DoctorSt :=
  match t with
  | Json.obj kvs =>
      if doctorTid st kvs = 0 then
        { st with repaired := st.repaired ++ [doctorTaskFields kvs 0] }
      else
        { repaired :=
            st.repaired ++ [doctorTaskFields kvs (doctorTid st kvs)],
          seen := st.seen ++ [doctorTid st kvs],
          maxId := max st.maxId (doctorTid st kvs) }
  | _ => st

/-- Whether a repaired record still carries the zero id
(`t.get("id") == 0`). -/
def hasZeroId (rec : List (String × Json)) : Bool :=
  ((Json.lookup rec "id").map (fun v => Json.pyEqNum v 0)).getD false

/-- The id-reassignment pass of `cmd_doctor` (fix mode): walk the
repaired records, giving each zero-id record the next fresh id.  Returns
the rewritten records and the next unused id. -/
def doctorAssign (nid : Int) :
    List (List (String × Json)) → List (List (String × Json)) × Int
  | [] => ([], nid)
  | rec :: rest =>
      if hasZeroId rec then
        let r := doctorAssign (nid + 1) rest
        (Json.setKey rec "id" (Json.num nid) :: r.1, r.2)
      else
        let r := doctorAssign nid rest
        (rec :: r.1, r.2)

/-- The root-object coercion of `cmd_doctor --fix`: a non-object root is
replaced by the empty dict. -/
def doctorRoot (data : Json) : List (String × Json) :=
  match data with
  | .obj k => k
  | _ => []

/-- The `version` coercion of `cmd_doctor`: integer coercion with
fallback 1. -/
def doctorVersion (data : Json) : Int :=
  match Json.pyInt ((Json.lookup (doctorRoot data) "version").getD
    (Json.num 1)) with
  | some v => v
  | none => 1

/-- The `next_id` coercion of `cmd_doctor`: integer coercion with
fallback 1. -/
def doctorNextId0 (data : Json) : Int :=
  match Json.pyInt ((Json.lookup (doctorRoot data) "next_id").getD
    (Json.num 1)) with
  | some v => v
  | none => 1

/-- The `tasks` list of `cmd_doctor --fix`: reset to `[]` when not a
list. -/
def doctorTasksRaw (data : Json) : List Json :=
  match (Json.lookup (doctorRoot data) "tasks").getD (Json.arr []) with
  | .arr xs => xs
  | _ => []

/-- The task loop of `cmd_doctor --fix` followed by the zero-id
reassignment pass: the repaired records and the resulting maximal id. -/
def doctorPass (data : Json) : List (List (String × Json)) × Int :=
  let st := (doctorTasksRaw data).foldl doctorStep ⟨[], [], 0⟩
  if st.repaired.any hasZeroId then
    let r := doctorAssign (st.maxId + 1) st.repaired
    (r.1, r.2 - 1)
  else (st.repaired, st.maxId)

/-- The `next_id` reconciliation of `cmd_doctor`: reset to `max_id + 1`
on mismatch. -/
def doctorFinalNextId (data : Json) : Int :=
  if (doctorPass data).2 + 1 ≠ doctorNextId0 data then
    (doctorPass data).2 + 1
  else doctorNextId0 data

/-- `cmd_doctor --fix` from `cli.py`, from the parsed file content to the
document written by `save_db`: coerce the root to an object, coerce
`version` and `next_id`, repair each task, reassign zeroed ids from
`max_id + 1`, and reconcile `next_id` to `max_id + 1`. -/
def cmdDoctorFix (data : Json) : List (String × Json) :=
  [("version", Json.num (doctorVersion data)),
   ("next_id", Json.num (doctorFinalNextId data)),
   ("tasks", Json.arr ((doctorPass data).1.map Json.obj))]

theorem doctorTaskFields_keys (kvs : List (String × Json)) (tid : Int) :
    (doctorTaskFields kvs tid).map Prod.fst = doctorKeys := rfl

theorem doctorStep_repaired (st : DoctorSt) (t : Json) :
    (doctorStep st t).repaired = st.repaired ∨
    ∃ kvs tid,
      (doctorStep st t).repaired =
        st.repaired ++ [doctorTaskFields kvs tid] := by
  cases t with
  | obj kvs =>
      unfold doctorStep
      dsimp only
      split
      · exact Or.inr ⟨kvs, 0, rfl⟩
      · exact Or.inr ⟨kvs, _, rfl⟩
  | null => exact Or.inl rfl
  | bool b => exact Or.inl rfl
  | num n => exact Or.inl rfl
  | str s => exact Or.inl rfl
  | arr xs => exact Or.inl rfl

theorem doctorStep_repaired_keys (ts : List Json) (st : DoctorSt)
    (h : ∀ r ∈ st.repaired, r.map Prod.fst = doctorKeys) :
    ∀ r ∈ (ts.foldl doctorStep st).repaired,
      r.map Prod.fst = doctorKeys := by
  induction ts generalizing st with
  | nil => exact h
  | cons t ts ih =>
      refine ih (doctorStep st t) ?_
      intro r hr
      rcases doctorStep_repaired st t with he | ⟨kvs, tid, he⟩
      · rw [he] at hr
        exact h r hr
      · rw [he] at hr
        rcases List.mem_append.mp hr with h1 | h1
        · exact h r h1
        · rw [List.mem_singleton.mp h1]
          exact doctorTaskFields_keys _ _

theorem map_fst_setKey_mem (kvs : List (String × Json)) (k : String)
    (v : Json) (h : k ∈ kvs.map Prod.fst) :
    (Json.setKey kvs k v).map Prod.fst = kvs.map Prod.fst := by
  induction kvs with
  | nil => simp at h
  | cons hd tl ih =>
      obtain ⟨k0, v0⟩ := hd
      by_cases he : k0 = k
      · simp [Json.setKey, he]
      · simp only [Json.setKey, he, if_false, List.map_cons]
        rw [ih ?_]
        rcases List.mem_cons.mp h with h1 | h1
        · exact absurd h1.symm he
        · exact h1

theorem doctorAssign_keys (nid : Int)
    (recs : List (List (String × Json)))
    (h : ∀ r ∈ recs, r.map Prod.fst = doctorKeys) :
    ∀ r ∈ (doctorAssign nid recs).1, r.map Prod.fst = doctorKeys := by
  induction recs generalizing nid with
  | nil =>
      intro r hr
      simp [doctorAssign] at hr
  | cons rec rest ih =>
      intro r hr
      have hrec := h rec (List.mem_cons_self rec rest)
      have hrest : ∀ r ∈ rest, r.map Prod.fst = doctorKeys :=
        fun r hr => h r (List.mem_cons_of_mem rec hr)
      unfold doctorAssign at hr
      dsimp only at hr
      split at hr
      · rcases List.mem_cons.mp hr with he | hm
        · rw [he, map_fst_setKey_mem]
          · exact hrec
          · rw [hrec]
            simp [doctorKeys]
        · exact ih (nid + 1) hrest r hm
      · rcases List.mem_cons.mp hr with he | hm
        · rw [he]
          exact hrec
        · exact ih nid hrest r hm

/-- C10: the repair command with the fix flag writes a document in which
every record carries exactly the eight schema keys id, text, done,
created_at, done_at, priority, due, tags, in that order — every
bug-specific field and every other extra key is dropped from every
record, including records that had no violations. -/
theorem cmdDoctorFix_record_keys (data : Json) :
    cmdDoctorFix data =
      [("version", Json.num (doctorVersion data)),
       ("next_id", Json.num (doctorFinalNextId data)),
       ("tasks", Json.arr ((doctorPass data).1.map Json.obj))] ∧
    ∀ rec ∈ (doctorPass data).1, rec.map Prod.fst = doctorKeys := by
  refine ⟨rfl, ?_⟩
  have hst := doctorStep_repaired_keys (doctorTasksRaw data) ⟨[], [], 0⟩
    (fun r hr => nomatch hr)
  unfold doctorPass
  dsimp only
  split
  · exact doctorAssign_keys _ _ hst
  · exact hst

/-- Witness for `cmdDoctorFix_record_keys`: a concrete record with a bug
field is rewritten to exactly the eight schema keys. -/
theorem cmdDoctorFix_record_keys_witness :
    (doctorTaskFields [("id", Json.num 1), ("bug_status", Json.str "open")]
      1).map Prod.fst = doctorKeys :=
  (cmdDoctorFix_record_keys (Json.obj [("tasks", Json.arr
    [Json.obj [("id", Json.num 1), ("bug_status", Json.str "open")]])])).2
    _ (List.mem_singleton_self _)

end TodoCli
